import Mathlib

/-!
Verification development for the google_dork_cli repository
(`src/google_dork_cli.py` — class `GoogleDorkClient`, and `src/advanced.py` —
classes `ProxyRotation`, `CacheManager`, `AdvancedGoogleDorkClient`).

Python strings are modelled as `List Char`; Python dictionaries read from
JSON are modelled by an inductive `Json` type; filesystem/network effects are
modelled by explicit state passing (cache stores are functions, responses are
passed as parameters, performed side effects are returned as event lists).
Exceptions are modelled with `Except PyErr`.
-/

namespace GoogleDork

/-- Python strings. -/
abbrev Str := List Char

/-- `needle in haystack` on Python strings (substring containment). -/
def strContains (needle hay : Str) : Bool := decide (needle <:+: hay)

/-- `s.startswith(pre)` on Python strings. -/
def strHasPrefix (pre s : Str) : Bool := decide (pre <+: s)

/-- Whitespace characters removed by Python's `str.strip()`. -/
def isPySpace (c : Char) : Bool := c = ' ' || c = '\t' || c = '\n' || c = '\r' || c = '\x0b' || c = '\x0c'

/-- Python `line.strip()`. -/
def pyStrip (s : Str) : Str :=
  ((s.dropWhile isPySpace).reverse.dropWhile isPySpace).reverse

/-- Python `s.rstrip('/')`. -/
def rstripSlash (s : Str) : Str :=
  (s.reverse.dropWhile (fun c => c = '/')).reverse

/-- Truthiness of a Python `Optional[str]` (`None` and `""` are falsy). -/
def pyTruthyOpt (s : Option Str) : Bool :=
  match s with
  | none => false
  | some v => !v.isEmpty

/-! ## Exceptions

`requestError` stands for `requests.exceptions.RequestException` (raised by
`session.get` on network failure and by `response.raise_for_status` on a bad
status); `attributeError`/`typeError` stand for `AttributeError`/`TypeError`
raised when `.get(...)` or iteration is applied to a non-dict/non-sequence
JSON value; `indexError` stands for `IndexError` from list indexing. -/

inductive PyErr where
  | requestError
  | attributeError
  | typeError
  | indexError
deriving DecidableEq, Repr

/-! ## ProxyRotation (src/advanced.py lines 81-116) -/

/-- The proxy dict `{'http': url, 'https': url}` built by
`ProxyRotation._parse_proxy`. -/
structure ProxyDict where
  http : Str
  https : Str
deriving DecidableEq, Repr

/-- The scheme prefixes tested by `_parse_proxy`:
`proxy_url.startswith(('http://', 'https://', 'socks5://'))`. -/
def proxySchemes : List Str :=
  [("http://").toList, ("https://").toList, ("socks5://").toList]

def hasProxyScheme (p : Str) : Bool :=
  proxySchemes.any (fun s => strHasPrefix s p)

/-- `ProxyRotation._parse_proxy`: prefix `http://` when the URL carries no
recognized scheme, and return the requests proxy dict. -/
def parseProxy (p : Str) : ProxyDict :=
  let p' := if hasProxyScheme p then p else ("http://").toList ++ p
  ⟨p', p'⟩

/-- The mutable state of a `ProxyRotation` object. -/
structure PRState where
  proxy_list : List Str
  current_index : Nat
deriving DecidableEq, Repr

/-- `ProxyRotation.__init__(proxy_list)`: `self.proxy_list = proxy_list or []`,
`self.current_index = 0`.  (`some []` and `none` both yield `[]`.) -/
def mkProxyRotation (l : Option (List Str)) : PRState :=
  ⟨l.getD [], 0⟩

/-- `ProxyRotation.get_next_proxy`.  Returns `none` when the list is empty;
otherwise indexes `proxy_list[current_index]` (an out-of-range index raises
`IndexError`, modelled by `Except.error`), advances the cursor modulo the list
length, and returns the parsed proxy. -/
def getNextProxy (s : PRState) : Except PyErr (Option ProxyDict) × PRState :=
  if s.proxy_list.isEmpty then (.ok none, s)
  else
    match s.proxy_list.get? s.current_index with
    | some p =>
        (.ok (some (parseProxy p)), ⟨s.proxy_list, (s.current_index + 1) % s.proxy_list.length⟩)
    | none => (.error .indexError, s)

/-- `ProxyRotation.load_from_file`: on success (`some lines`) replaces
`proxy_list` with the stripped non-blank lines — the cursor is NOT reset; on
an I/O error (`none`) the exception is caught and the state is unchanged. -/
def loadFromFile (s : PRState) (file : Option (List Str)) : PRState :=
  match file with
  | none => s
  | some lines => ⟨(lines.map pyStrip).filter (fun l => !l.isEmpty), s.current_index⟩

/-- An operation on a `ProxyRotation` object after construction. -/
inductive PROp where
  | getNext
  | load (file : Option (List Str))

/-- Run a sequence of operations, stopping at the first uncaught exception. -/
def runPROps (s : PRState) : List PROp → Except PyErr PRState
  | [] => .ok s
  | PROp.getNext :: ops =>
      match getNextProxy s with
      | (.ok _, s') => runPROps s' ops
      | (.error e, _) => .error e
  | PROp.load f :: ops => runPROps (loadFromFile s f) ops

/-- State after `k` consecutive `get_next_proxy` calls (results discarded). -/
def iterGetNext (s : PRState) : Nat → PRState
  | 0 => s
  | n + 1 => iterGetNext (getNextProxy s).2 n

/-- Result of the `(k+1)`-th consecutive `get_next_proxy` call from `s`. -/
def callOutput (s : PRState) (k : Nat) : Except PyErr (Option ProxyDict) :=
  (getNextProxy (iterGetNext s k)).1

/-! ## CacheManager (src/advanced.py lines 119-156) -/

/-- One cache file's JSON payload `{'query': ..., 'results': ..., 'timestamp': ...}`
written by `CacheManager.set`.  Timestamps are rationals standing for
`datetime.now().timestamp()`. -/
structure CacheEntry (α : Type) where
  query : Str
  results : List α
  timestamp : ℚ

/-- The cache directory: a map from hashed-query file names to entries
(`none` = the file does not exist). -/
def CacheStore (α : Type) := Str → Option (CacheEntry α)

/-- `CacheManager.set(query, results)` at wall-clock time `now`: overwrite the
file named by `hash query`. -/
def cacheSet {α : Type} (hash : Str → Str) (st : CacheStore α) (q : Str)
    (rs : List α) (now : ℚ) : CacheStore α :=
  fun h => if h = hash q then some ⟨q, rs, now⟩ else st h

/-- `CacheManager.get(query)` at wall-clock time `now`: return the stored
results when the file exists and `now - timestamp < 86400`, else `None`. -/
def cacheGet {α : Type} (hash : Str → Str) (st : CacheStore α) (q : Str)
    (now : ℚ) : Option (List α) :=
  match st (hash q) with
  | none => none
  | some e => if now - e.timestamp < 86400 then some e.results else none

/-! ## JSON values and Python dict/iteration semantics -/

/-- Parsed JSON bodies (`response.json()`), config files and result-record
field values. -/
inductive Json where
  | null
  | str (s : Str)
  | num (n : Int)
  | arr (xs : List Json)
  | obj (kvs : List (Str × Json))

/-- Python truthiness of a JSON value. -/
def jtruthy : Json → Bool
  | .null => false
  | .str s => !s.isEmpty
  | .num n => decide (n ≠ 0)
  | .arr xs => !xs.isEmpty
  | .obj kvs => !kvs.isEmpty

/-- Python `a or b`. -/
def pyor (a b : Json) : Json := if jtruthy a then a else b

/-- Python `value.get(key, default)`: raises `AttributeError` unless `value`
is a dict. -/
def jget (j : Json) (k : Str) (dflt : Json) : Except PyErr Json :=
  match j with
  | .obj kvs =>
      match kvs.find? (fun kv => decide (kv.1 = k)) with
      | some kv => .ok kv.2
      | none => .ok dflt
  | _ => .error .attributeError

/-- Python `for item in value`: lists iterate their items, strings iterate
their characters (as 1-character strings), dicts iterate their keys, and
other values raise `TypeError`. -/
def jiter : Json → Except PyErr (List Json)
  | .arr xs => .ok xs
  | .str s => .ok (s.map (fun c => Json.str [c]))
  | .obj kvs => .ok (kvs.map (fun kv => Json.str kv.1))
  | _ => .error .typeError

/-! ## URL host extraction

`urlparse(url).netloc` as used for the `domain` field: the run of characters
after the first `//`, up to the next `/`, `?` or `#`. -/

def afterSlashes : List Char → Option (List Char)
  | [] => none
  | [_] => none
  | a :: b :: rest =>
      if a = '/' ∧ b = '/' then some rest else afterSlashes (b :: rest)

def urlNetloc (u : Str) : Str :=
  match afterSlashes u with
  | none => []
  | some r => r.takeWhile (fun c => !(c = '/' || c = '?' || c = '#'))

/-- The engine's own domain filtered out by the Google adapter. -/
def googleDom : Str := ("google.com").toList

/-- Formalization of the spec phrase "the URL's host matches the engine's own
domain": the host component is `google.com` itself or a subdomain of it. -/
def hostMatchesGoogle (u : Str) : Bool :=
  decide (urlNetloc u = googleDom) || decide (('.' :: googleDom) <:+ urlNetloc u)

/-! ## Search results and log messages -/

/-- The result records built by the Google HTML adapters
(`{'title': ..., 'url': ..., 'snippet': ..., 'domain': ...}`; the basic
client's record has no `domain` key). -/
structure GResult where
  title : Str
  url : Str
  snippet : Str
  dom : Str
deriving DecidableEq, Repr

/-- A generic result dict: the JSON-API adapters store raw JSON field values;
`dom` is the optional `domain` entry (absent in the basic client's records). -/
structure SResult where
  title : Json
  url : Json
  snippet : Json
  dom : Option Str

def toSRes (g : GResult) : SResult :=
  ⟨.str g.title, .str g.url, .str g.snippet, some g.dom⟩

def toSResNoDom (g : GResult) : SResult :=
  ⟨.str g.title, .str g.url, .str g.snippet, none⟩

/-- Diagnostics written with `click.echo(..., err=True)`. -/
inductive LogMsg where
  | missingBingKey
  | missingBraveKey
  | missingSearxEndpoint
  | searchError (q : Str)
deriving DecidableEq, Repr

/-- The literal source text of each diagnostic. -/
def logText : LogMsg → Str
  | .missingBingKey => ("Bing API key is missing. Set BING_API_KEY or config.json.").toList
  | .missingBraveKey => ("Brave API key is missing. Set BRAVE_API_KEY or config.json.").toList
  | .missingSearxEndpoint => ("SearXNG endpoint is missing. Set SEARXNG_ENDPOINT or config.json.").toList
  | .searchError q => ("Search error for \x22").toList ++ q ++ ("\x22").toList

/-- Observable side effects of one search: the jittered `time.sleep` and the
HTTP GET issued by `session.get` (recorded by its URL). -/
inductive Event where
  | sleep (d : ℚ)
  | net (endpoint : Str)
deriving DecidableEq, Repr

/-- An HTTP response as seen by an adapter: the request may fail at the
network level (`netFail`, a `RequestException` from `session.get`), return a
non-2xx status (`badStatus`, an `HTTPError` from `raise_for_status`), or
succeed with parsed content `b`. -/
inductive Resp (β : Type) where
  | netFail
  | badStatus
  | content (b : β)

/-- What an adapter call produces: its return value (or uncaught exception),
the sleep/network events it performed, and the diagnostics it logged. -/
structure AdapterOut where
  result : Except PyErr (List SResult)
  events : List Event
  logs : List LogMsg

/-! ## HTML-scrape adapters (Google, DuckDuckGo) -/

/-- A `div.g` result container as inspected by `_search_google`:
`titleElem` is the `h3` text when present, `link` is the anchor's
`get('href', '')` when an anchor is present, `snippetElem` the `span.st`
text when present. -/
structure GCandidate where
  titleElem : Option Str
  link : Option Str
  snippetElem : Option Str

def httpS : Str := ("http").toList

/-- The Google adapters' URL filter:
`url and 'google.com' not in url and url.startswith('http')`. -/
def googleURLFilter (u : Str) : Bool :=
  !u.isEmpty && !strContains googleDom u && strHasPrefix httpS u

/-- The extraction loop of `AdvancedGoogleDorkClient._search_google`
(lines 296-315); `GoogleDorkClient._search_google` (lines 171-190) runs the
same loop without the `domain` field. -/
def extractGoogleResults (cands : List GCandidate) : List GResult :=
  cands.filterMap fun c =>
    match c.titleElem, c.link with
    | some title, some url =>
        if googleURLFilter url then
          some ⟨title, url, c.snippetElem.getD (("N/A").toList), urlNetloc url⟩
        else none
    | _, _ => none

/-- A `div.result` container as inspected by `_search_duckduckgo`: `link` is
`(get_text, get('href', ''))` of `a.result__a` when present. -/
structure DCandidate where
  link : Option (Str × Str)
  snippetElem : Option Str

/-- The DuckDuckGo filter: `url_str and url_str.startswith('http')`. -/
def ddgURLFilter (u : Str) : Bool := !u.isEmpty && strHasPrefix httpS u

def extractDdgResults (cands : List DCandidate) : List GResult :=
  cands.filterMap fun c =>
    match c.link with
    | none => none
    | some (t, h) =>
        if ddgURLFilter h then
          some ⟨t, h, c.snippetElem.getD (("N/A").toList), urlNetloc h⟩
        else none

/-! ## Shared adapter plumbing

A parse pipeline returns the results accumulated before the first exception,
paired with that exception when one occurred (Python's `results.append` loop
keeps earlier items when a later statement raises). -/

/-- Run an item-mapping over the fetched items, stopping at the first
exception. -/
def processItems {R : Type} (f : Json → Except PyErr R) : List Json → List R × Option PyErr
  | [] => ([], none)
  | it :: its =>
      match f it with
      | .ok r =>
          let rest := processItems f its
          (r :: rest.1, rest.2)
      | .error e => ([], some e)

/-- Network stage + HTML extraction (the extraction itself never raises). -/
def scrapeParse {β : Type} (extract : β → List SResult) :
    Resp β → List SResult × Option PyErr
  | .netFail => ([], some .requestError)
  | .badStatus => ([], some .requestError)
  | .content b => (extract b, none)

/-- Network stage + two-level JSON field access
(`data.get(k1, {}).get(k2, [])`) + iteration + item mapping. -/
def apiParse2 (k1 k2 : Str) (itemFn : Json → Except PyErr SResult) :
    Resp Json → List SResult × Option PyErr
  | .netFail => ([], some .requestError)
  | .badStatus => ([], some .requestError)
  | .content j =>
      match (do
        let a ← jget j k1 (.obj [])
        let b ← jget a k2 (.arr [])
        jiter b) with
      | .error e => ([], some e)
      | .ok items => processItems itemFn items

/-- Network stage + one-level JSON field access (`data.get(k1, [])`). -/
def apiParse1 (k1 : Str) (itemFn : Json → Except PyErr SResult) :
    Resp Json → List SResult × Option PyErr
  | .netFail => ([], some .requestError)
  | .badStatus => ([], some .requestError)
  | .content j =>
      match (do
        let b ← jget j k1 (.arr [])
        jiter b) with
      | .error e => ([], some e)
      | .ok items => processItems itemFn items

/-- The advanced client's `except Exception` handler: every exception is
caught; the results accumulated so far are returned (`return results` sits
after the handler) and the error is logged with the query. -/
def advWrap (ep : Str) (q : Str) (out : List SResult × Option PyErr) : AdapterOut :=
  { result := .ok out.1
    events := [.net ep]
    logs := match out.2 with
            | some _ => [.searchError q]
            | none => [] }

/-- The basic client's `except requests.exceptions.RequestException` handler:
only request-level errors are caught (logging the query and returning `[]`);
any other exception propagates to the caller.  The basic adapters `time.sleep`
inside the `try` block before issuing the request. -/
def basicWrap (d u : ℚ) (ep : Str) (q : Str) (out : List SResult × Option PyErr) : AdapterOut :=
  match out.2 with
  | none => { result := .ok out.1, events := [.sleep (d + u), .net ep], logs := [] }
  | some e =>
      if e = .requestError then
        { result := .ok [], events := [.sleep (d + u), .net ep], logs := [.searchError q] }
      else
        { result := .error e, events := [.sleep (d + u), .net ep], logs := [] }

/-! ## JSON-API item mappings -/

/-- `AdvancedGoogleDorkClient` item mapping: reads `url` first, then the
title/snippet fields, then derives `domain` via
`urlparse(url_str).netloc if url_str else ''` (`urlparse` of a truthy
non-string raises). -/
def advApiItem (kTitle kUrl kSnip1 kSnip2 : Str) (item : Json) : Except PyErr SResult := do
  let url ← jget item kUrl (.str [])
  let title ← jget item kTitle (.str [])
  let s1 ← jget item kSnip1 (.str [])
  let s2 ← jget item kSnip2 (.str [])
  let dom ←
    if jtruthy url then
      match url with
      | .str s => Except.ok (urlNetloc s)
      | _ => Except.error PyErr.typeError
    else Except.ok []
  Except.ok ⟨title, url, pyor s1 s2, some dom⟩

/-- `GoogleDorkClient` item mapping (no `domain` field). -/
def basicApiItem (kTitle kUrl kSnip1 kSnip2 : Str) (item : Json) : Except PyErr SResult := do
  let title ← jget item kTitle (.str [])
  let url ← jget item kUrl (.str [])
  let s1 ← jget item kSnip1 (.str [])
  let s2 ← jget item kSnip2 (.str [])
  Except.ok ⟨title, url, pyor s1 s2, none⟩

def nameK : Str := ("name").toList
def urlK : Str := ("url").toList
def titleK : Str := ("title").toList
def snippetK : Str := ("snippet").toList
def descriptionK : Str := ("description").toList
def contentK : Str := ("content").toList
def webPagesK : Str := ("webPages").toList
def valueK : Str := ("value").toList
def webK : Str := ("web").toList
def resultsK : Str := ("results").toList

def googleSearchUrl : Str := ("https://www.google.com/search").toList
def ddgSearchUrl : Str := ("https://duckduckgo.com/html/").toList
def searxSearchSuffix : Str := ("/search").toList

/-! ## The advanced client's adapters (src/advanced.py lines 271-477) -/

def advSearchGoogle (q : Str) (resp : Resp (List GCandidate)) : AdapterOut :=
  advWrap googleSearchUrl q (scrapeParse (fun c => (extractGoogleResults c).map toSRes) resp)

def advSearchDdg (q : Str) (resp : Resp (List DCandidate)) : AdapterOut :=
  advWrap ddgSearchUrl q (scrapeParse (fun c => (extractDdgResults c).map toSRes) resp)

def advSearchBing (key : Option Str) (ep : Str) (q : Str) (resp : Resp Json) : AdapterOut :=
  if pyTruthyOpt key = false then
    { result := .ok [], events := [], logs := [.missingBingKey] }
  else
    advWrap ep q (apiParse2 webPagesK valueK (advApiItem nameK urlK snippetK descriptionK) resp)

def advSearchBrave (key : Option Str) (ep : Str) (q : Str) (resp : Resp Json) : AdapterOut :=
  if pyTruthyOpt key = false then
    { result := .ok [], events := [], logs := [.missingBraveKey] }
  else
    advWrap ep q (apiParse2 webK resultsK (advApiItem titleK urlK descriptionK snippetK) resp)

def advSearchSearx (ep : Str) (q : Str) (resp : Resp Json) : AdapterOut :=
  if ep.isEmpty then
    { result := .ok [], events := [], logs := [.missingSearxEndpoint] }
  else
    advWrap (rstripSlash ep ++ searxSearchSuffix) q
      (apiParse1 resultsK (advApiItem titleK urlK contentK snippetK) resp)

/-! ## The basic client's adapters (src/google_dork_cli.py lines 139-315) -/

def basicSearchGoogle (d u : ℚ) (q : Str) (resp : Resp (List GCandidate)) : AdapterOut :=
  basicWrap d u googleSearchUrl q
    (scrapeParse (fun c => (extractGoogleResults c).map toSResNoDom) resp)

def basicSearchDdg (d u : ℚ) (q : Str) (resp : Resp (List DCandidate)) : AdapterOut :=
  basicWrap d u ddgSearchUrl q
    (scrapeParse (fun c => (extractDdgResults c).map toSResNoDom) resp)

def basicSearchBing (d u : ℚ) (key : Option Str) (ep : Str) (q : Str) (resp : Resp Json) : AdapterOut :=
  if pyTruthyOpt key = false then
    { result := .ok [], events := [], logs := [.missingBingKey] }
  else
    basicWrap d u ep q (apiParse2 webPagesK valueK (basicApiItem nameK urlK snippetK descriptionK) resp)

def basicSearchSearx (d u : ℚ) (ep : Str) (q : Str) (resp : Resp Json) : AdapterOut :=
  if ep.isEmpty then
    { result := .ok [], events := [], logs := [.missingSearxEndpoint] }
  else
    basicWrap d u (rstripSlash ep ++ searxSearchSuffix) q
      (apiParse1 resultsK (basicApiItem titleK urlK contentK snippetK) resp)

/-! ## The advanced Search Client (src/advanced.py lines 159-269) -/

def bingS : Str := ("bing").toList
def braveS : Str := ("brave").toList
def ddgS : Str := ("duckduckgo").toList
def searxS : Str := ("searxng").toList

/-- The fields of `AdvancedGoogleDorkClient` relevant to `search`
(`self.engine` is the lowercased engine string; endpoints are already
defaulted by `__init__`). -/
structure AdvCfg where
  delay : ℚ
  engine : Str
  bingKey : Option Str
  bingEp : Str
  braveKey : Option Str
  braveEp : Str
  searxEp : Str

/-- The per-call environment: the jitter sample `u` drawn by
`random.uniform(0, 1)`, the wall-clock time `now`, and the response the
network would deliver for this call (one slot per response shape). -/
structure Env where
  u : ℚ
  now : ℚ
  apiResp : Resp Json
  gResp : Resp (List GCandidate)
  dResp : Resp (List DCandidate)

/-- Engine dispatch in `AdvancedGoogleDorkClient.search` (string comparison
with a fall-through `else` to Google). -/
def advDispatch (cfg : AdvCfg) (q : Str) (e : Env) : AdapterOut :=
  if cfg.engine = bingS then advSearchBing cfg.bingKey cfg.bingEp q e.apiResp
  else if cfg.engine = braveS then advSearchBrave cfg.braveKey cfg.braveEp q e.apiResp
  else if cfg.engine = ddgS then advSearchDdg q e.dResp
  else if cfg.engine = searxS then advSearchSearx cfg.searxEp q e.apiResp
  else advSearchGoogle q e.gResp

/-- What the cache-check step reads (`self.cache.get(query)` when a cache is
configured). -/
def advCached (cache : Option (CacheStore SResult)) (hash : Str → Str) (q : Str)
    (now : ℚ) : Option (List SResult) :=
  match cache with
  | some st => cacheGet hash st q now
  | none => none

/-- The outcome of `AdvancedGoogleDorkClient.search`. -/
structure SearchOut where
  result : Except PyErr (List SResult)
  cache : Option (CacheStore SResult)
  events : List Event
  logs : List LogMsg

/-- `AdvancedGoogleDorkClient.search` (lines 243-269): check the cache
(`if cached:` — Python truthiness, so `None` AND a cached empty list both
fall through), sleep `delay + uniform(0,1)`, dispatch on the engine, then
store the fetched results when caching is enabled. -/
def advSearch (cfg : AdvCfg) (cache : Option (CacheStore SResult)) (hash : Str → Str)
    (q : Str) (e : Env) : SearchOut :=
  let cached := advCached cache hash q e.now
  if (cached.getD []).isEmpty = false then
    { result := .ok (cached.getD []), cache := cache, events := [], logs := [] }
  else
    let aout := advDispatch cfg q e
    match aout.result with
    | .error err =>
        { result := .error err, cache := cache
          events := .sleep (cfg.delay + e.u) :: aout.events, logs := aout.logs }
    | .ok rs =>
        { result := .ok rs
          cache := match cache with
                   | some st => some (cacheSet hash st q rs e.now)
                   | none => none
          events := .sleep (cfg.delay + e.u) :: aout.events
          logs := aout.logs }

/-! ## The basic Search Client (src/google_dork_cli.py lines 130-137) -/

structure BasicCfg where
  delay : ℚ
  engine : Str
  bingKey : Option Str
  bingEp : Str
  searxEp : Str

/-- `GoogleDorkClient.search`: pure engine dispatch — no cache, and the delay
is taken inside each adapter. -/
def basicSearch (cfg : BasicCfg) (q : Str) (e : Env) : AdapterOut :=
  if cfg.engine = bingS then basicSearchBing cfg.delay e.u cfg.bingKey cfg.bingEp q e.apiResp
  else if cfg.engine = ddgS then basicSearchDdg cfg.delay e.u q e.dResp
  else if cfg.engine = searxS then basicSearchSearx cfg.delay e.u cfg.searxEp q e.apiResp
  else basicSearchGoogle cfg.delay e.u q e.gResp

/-! ## search_multiple (src/advanced.py lines 479-491)

`all_results` is a Python dict built by `all_results[query] = self.search(query)`
over the queries in order.  The per-call result is abstracted by an oracle
`f : Nat → R` giving the value returned by the `n`-th search call (search is
stateful — cache and proxy cursor advance — so repeated queries may differ). -/

/-- Python `d[k] = v`: update in place when the key is present (keeping its
position), else append. -/
def dictInsert {R : Type} (d : List (Str × R)) (k : Str) (v : R) : List (Str × R) :=
  if d.any (fun p => decide (p.1 = k)) then
    d.map (fun p => if p.1 = k then (p.1, v) else p)
  else d ++ [(k, v)]

/-- Python `d[k]` / key membership. -/
def dlookup {R : Type} : List (Str × R) → Str → Option R
  | [], _ => none
  | p :: d', k => if p.1 = k then some p.2 else dlookup d' k

/-- The loop of `search_multiple`, from call counter `n` and dict `d`. -/
def runBatchAux {R : Type} (f : Nat → R) : List Str → Nat → List (Str × R) → List (Str × R)
  | [], _, d => d
  | q :: qs, n, d => runBatchAux f qs (n + 1) (dictInsert d q (f n))

/-- `search_multiple(queries)` with per-call results given by the oracle `f`. -/
def runBatch {R : Type} (f : Nat → R) (qs : List Str) : List (Str × R) :=
  runBatchAux f qs 0 []

/-- Iteration order of a Python dict keyed by the processed queries: each
query appears once, at the position of its first occurrence. -/
def pyKeyOrder (qs : List Str) : List Str :=
  qs.foldl (fun ks q => if q ∈ ks then ks else ks ++ [q]) []

/-- Index of the last occurrence of `k` in the list, if any. -/
def lastIdx : List Str → Str → Option Nat
  | [], _ => none
  | q :: qs, k =>
      match lastIdx qs k with
      | some i => some (i + 1)
      | none => if q = k then some 0 else none

/-! ## Config resolution (src/advanced.py lines 48-56, src/google_dork_cli.py
lines 45-53; the two files' `resolve_bing_config` are identical) -/

/-- `get_config_value(config, keys, default)`: walk the nested keys, returning
the default as soon as the current value is not a dict or lacks the key. -/
def getConfigValue (j : Json) (keys : List Str) (dflt : Json) : Json :=
  match keys with
  | [] => j
  | k :: ks =>
      match j with
      | .obj kvs =>
          match kvs.find? (fun kv => decide (kv.1 = k)) with
          | some kv => getConfigValue kv.2 ks dflt
          | none => dflt
      | _ => dflt

/-- `os.getenv(name) or fallback`: the environment value is used only when it
is set AND non-empty (Python truthiness of `or`). -/
def pyOrEnv (env : Option Str) (fallback : Json) : Json :=
  match env with
  | some s => if s.isEmpty then fallback else .str s
  | none => fallback

def bingK : Str := ("bing").toList
def apiKeyK : Str := ("api_key").toList
def endpointK : Str := ("endpoint").toList
def defaultBingEndpoint : Str := ("https://api.bing.microsoft.com/v7.0/search").toList

/-- `resolve_bing_config`, with the environment variables `BING_API_KEY` and
`BING_ENDPOINT` passed explicitly and the config file already loaded.
Returns `(api_key, endpoint)`; `Json.null` models Python `None`. -/
def resolveBingConfig (envKey envEp : Option Str) (cfg : Json) : Json × Json :=
  let api := pyOrEnv envKey (getConfigValue cfg [bingK, apiKeyK] .null)
  let ep0 := pyOrEnv envEp (getConfigValue cfg [bingK, endpointK] (.str defaultBingEndpoint))
  let ep := if jtruthy ep0 then ep0 else .str defaultBingEndpoint
  (api, ep)

/-! ## Helper lemmas: proxy rotation -/

theorem getNextProxy_nonempty (l : List Str) (i : Nat) (hi : i < l.length) :
    getNextProxy ⟨l, i⟩ = (.ok (some (parseProxy (l.get ⟨i, hi⟩))), ⟨l, (i + 1) % l.length⟩) := by
  have hne : l.isEmpty = false := by
    cases l with
    | nil => exact absurd hi (by simp)
    | cons a t => rfl
  unfold getNextProxy
  simp only [hne, Bool.false_eq_true, if_false]
  rw [List.get?_eq_get hi]

theorem iterGetNext_rot (l : List Str) (hl : 0 < l.length) :
    ∀ (k i : Nat), i < l.length → iterGetNext ⟨l, i⟩ k = ⟨l, (i + k) % l.length⟩ := by
  intro k
  induction k with
  | zero =>
    intro i hi
    simp [iterGetNext, Nat.mod_eq_of_lt hi]
  | succ n ih =>
    intro i hi
    have step : iterGetNext ⟨l, i⟩ (n + 1) = iterGetNext (getNextProxy ⟨l, i⟩).2 n := rfl
    rw [step, getNextProxy_nonempty l i hi]
    rw [ih ((i + 1) % l.length) (Nat.mod_lt _ hl)]
    have : ((i + 1) % l.length + n) % l.length = (i + (n + 1)) % l.length := by
      rw [Nat.mod_add_mod]
      congr 1
      omega
    rw [this]

theorem callOutput_nonempty (l : List Str) (hl : 0 < l.length) (k : Nat) :
    callOutput ⟨l, 0⟩ k
      = .ok (some (parseProxy (l.get ⟨k % l.length, Nat.mod_lt _ hl⟩))) := by
  unfold callOutput
  rw [iterGetNext_rot l hl k 0 hl]
  simp only [Nat.zero_add]
  rw [getNextProxy_nonempty l (k % l.length) (Nat.mod_lt _ hl)]

theorem parseProxy_scheme (p : Str) : hasProxyScheme (parseProxy p).http = true := by
  unfold parseProxy
  by_cases h : hasProxyScheme p
  · simp [h]
  · simp only [h, Bool.false_eq_true, if_false]
    simp only [hasProxyScheme, proxySchemes, List.any_cons, List.any_nil, strHasPrefix,
      Bool.or_eq_true, decide_eq_true_eq]
    exact Or.inl (List.prefix_append _ _)

theorem iterGetNext_nil (k : Nat) : iterGetNext ⟨[], 0⟩ k = ⟨[], 0⟩ := by
  induction k with
  | zero => rfl
  | succ n ih => simpa [iterGetNext, getNextProxy] using ih

/-- C1: for a `ProxyRotation` over `N >= 1` endpoints with cursor `0`, the
`(i+1)`-th of the first `N` `get_next_proxy` calls returns the `i`-th endpoint
(normalized to carry a scheme), the `(N+1)`-th call returns the same proxy as
the first, and with an empty list every call returns `None`. -/
theorem C1_proxy_round_robin (l : List Str) :
    (∀ (i : Nat) (hi : i < l.length),
        callOutput ⟨l, 0⟩ i = .ok (some (parseProxy (l.get ⟨i, hi⟩)))
        ∧ hasProxyScheme (parseProxy (l.get ⟨i, hi⟩)).http = true)
    ∧ (l ≠ [] → callOutput ⟨l, 0⟩ l.length = callOutput ⟨l, 0⟩ 0)
    ∧ (∀ k, callOutput ⟨[], 0⟩ k = .ok none) := by
  refine ⟨?_, ?_, ?_⟩
  · intro i hi
    have hl : 0 < l.length := Nat.lt_of_le_of_lt (Nat.zero_le _) hi
    refine ⟨?_, parseProxy_scheme _⟩
    have h2 : (⟨i % l.length, Nat.mod_lt _ hl⟩ : Fin l.length) = ⟨i, hi⟩ :=
      Fin.ext (Nat.mod_eq_of_lt hi)
    rw [callOutput_nonempty l hl i, h2]
  · intro hne
    have hl : 0 < l.length := List.length_pos.mpr hne
    rw [callOutput_nonempty l hl l.length, callOutput_nonempty l hl 0]
    congr 1
    simp [Nat.mod_self, Nat.mod_eq_of_lt hl]
  · intro k
    unfold callOutput
    rw [iterGetNext_nil k]
    rfl

/-- Witness for C1 at a two-element proxy list and at the empty list. -/
theorem C1_witness :
    callOutput ⟨[("p1.example:8080").toList, ("https://p2.example").toList], 0⟩ 0
      = .ok (some (parseProxy (("p1.example:8080").toList)))
    ∧ callOutput ⟨([] : List Str), 0⟩ 3 = .ok none :=
  ⟨((C1_proxy_round_robin [("p1.example:8080").toList, ("https://p2.example").toList]).1
      0 (by decide)).1,
   (C1_proxy_round_robin []).2.2 3⟩

/-! ## Helper lemmas: proxy-rotation operation sequences -/

/-- The invariant under which `get_next_proxy` is index-safe. -/
def prInv (s : PRState) : Prop :=
  s.current_index = 0 ∨ s.current_index < s.proxy_list.length

theorem runPROps_nil (s : PRState) : runPROps s [] = .ok s := rfl

theorem runPROps_cons_getNext (s : PRState) (ops : List PROp) :
    runPROps s (PROp.getNext :: ops)
      = match getNextProxy s with
        | (.ok _, s') => runPROps s' ops
        | (.error e, _) => .error e := rfl

theorem runPROps_cons_load (s : PRState) (f : Option (List Str)) (ops : List PROp) :
    runPROps s (PROp.load f :: ops) = runPROps (loadFromFile s f) ops := rfl

theorem runPROps_loads (loads : List (Option (List Str))) :
    ∀ s : PRState, ∃ L, runPROps s (loads.map PROp.load) = .ok ⟨L, s.current_index⟩ := by
  induction loads with
  | nil => intro s; exact ⟨s.proxy_list, rfl⟩
  | cons f fs ih =>
    intro s
    obtain ⟨L, hL⟩ := ih (loadFromFile s f)
    refine ⟨L, ?_⟩
    have hidx : (loadFromFile s f).current_index = s.current_index := by
      cases f <;> rfl
    rw [hidx] at hL
    simp only [List.map_cons]
    rw [runPROps_cons_load]
    exact hL

theorem runPROps_getNexts (n : Nat) :
    ∀ s : PRState, prInv s → ∃ s', runPROps s (List.replicate n PROp.getNext) = .ok s' := by
  induction n with
  | zero => intro s _; exact ⟨s, rfl⟩
  | succ m ih =>
    intro s hinv
    by_cases hemp : s.proxy_list.isEmpty
    · have hstep : getNextProxy s = (.ok none, s) := by
        unfold getNextProxy
        simp [hemp]
      obtain ⟨s', hs'⟩ := ih s hinv
      exact ⟨s', by simpa [List.replicate_succ, runPROps, hstep] using hs'⟩
    · have hpos : 0 < s.proxy_list.length := by
        cases hl : s.proxy_list with
        | nil => rw [hl] at hemp; exact absurd rfl hemp
        | cons a t => simp
      have hlt : s.current_index < s.proxy_list.length := by
        rcases hinv with h0 | h
        · rw [h0]; exact hpos
        · exact h
      have hstep :
          getNextProxy s
            = (.ok (some (parseProxy (s.proxy_list.get ⟨s.current_index, hlt⟩))),
               ⟨s.proxy_list, (s.current_index + 1) % s.proxy_list.length⟩) := by
        have := getNextProxy_nonempty s.proxy_list s.current_index hlt
        simpa using this
      have hinv' : prInv ⟨s.proxy_list, (s.current_index + 1) % s.proxy_list.length⟩ :=
        Or.inr (Nat.mod_lt _ hpos)
      obtain ⟨s', hs'⟩ := ih _ hinv'
      exact ⟨s', by simpa [List.replicate_succ, runPROps, hstep] using hs'⟩

theorem runPROps_append (ops1 ops2 : List PROp) :
    ∀ s : PRState, runPROps s (ops1 ++ ops2)
      = match runPROps s ops1 with
        | .ok s' => runPROps s' ops2
        | .error e => .error e := by
  induction ops1 with
  | nil => intro s; rfl
  | cons op ops ih =>
    intro s
    cases op with
    | getNext =>
      show runPROps s (PROp.getNext :: (ops ++ ops2)) = _
      rw [runPROps_cons_getNext, runPROps_cons_getNext]
      rcases h : getNextProxy s with ⟨r, s'⟩
      cases r with
      | ok v => exact ih s'
      | error e => rfl
    | load f =>
      show runPROps s (PROp.load f :: (ops ++ ops2)) = _
      rw [runPROps_cons_load, runPROps_cons_load]
      exact ih (loadFromFile s f)

/-- C10 counterexample: `load_from_file` does not reset the cursor, so after
one `get_next_proxy` (cursor 1) a successful load of a single proxy leaves
cursor 1 on a length-1 list, and the next `get_next_proxy` raises
`IndexError`. -/
theorem C10_counterexample :
    runPROps (mkProxyRotation (some [("a").toList, ("b").toList]))
      [PROp.getNext, PROp.load (some [("c").toList]), PROp.getNext]
      = .error .indexError := by
  rfl

/-- C10 amended: the cursor invariant holds — and `get_next_proxy` never
performs an out-of-range access — for every operation sequence in which all
`load_from_file` calls happen before the first `get_next_proxy` call. -/
theorem C10_amended (l : Option (List Str)) (loads : List (Option (List Str))) (n : Nat) :
    ∃ s', runPROps (mkProxyRotation l) (loads.map PROp.load ++ List.replicate n PROp.getNext)
      = .ok s' := by
  obtain ⟨L, hL⟩ := runPROps_loads loads (mkProxyRotation l)
  have hidx : (mkProxyRotation l).current_index = 0 := rfl
  rw [hidx] at hL
  obtain ⟨s', hs'⟩ := runPROps_getNexts n ⟨L, 0⟩ (Or.inl rfl)
  refine ⟨s', ?_⟩
  rw [runPROps_append, hL]
  exact hs'

/-! ## C2: cache round trip and TTL expiry -/

/-- C2: `set(q, r)` at time `t` followed by `get(q)` at any time `tq` within
the 86400-second TTL window returns `r` unchanged; and `get(q)` returns `None`
for an entry whose stored timestamp is at least 86400 seconds old, even though
the file (`st (hash q)`) still exists. -/
theorem C2_cache_roundtrip_ttl {α : Type} (hash : Str → Str) (st : CacheStore α)
    (q : Str) (rs : List α) (t tq : ℚ) (e : CacheEntry α) :
    (0 ≤ tq - t → tq - t < 86400 →
      cacheGet hash (cacheSet hash st q rs t) q tq = some rs)
    ∧ (st (hash q) = some e → 86400 ≤ tq - e.timestamp →
      cacheGet hash st q tq = none) := by
  constructor
  · intro _ h2
    unfold cacheGet cacheSet
    simp only [if_pos rfl]
    show (if tq - t < 86400 then some rs else none) = some rs
    rw [if_pos h2]
  · intro he h2
    unfold cacheGet
    rw [he]
    show (if tq - e.timestamp < 86400 then some e.results else none) = none
    rw [if_neg (by linarith)]

/-- Witness for C2: a concrete round trip at time 0, and a lookup of an entry
written 86400 seconds in the past. -/
theorem C2_witness :
    cacheGet (fun s => s)
        (cacheSet (fun s => s)
          (fun _ => (some ⟨[], [], -86400⟩ : Option (CacheEntry Nat))) [('q')] [7] 0)
        [('q')] 0
      = some [7]
    ∧ cacheGet (fun s => s) (fun _ => (some ⟨[], [], -86400⟩ : Option (CacheEntry Nat)))
        [('q')] 0
      = none :=
  ⟨(C2_cache_roundtrip_ttl (fun s => s) (fun _ => some ⟨[], [], -86400⟩) [('q')] [7] 0 0
      ⟨[], [], -86400⟩).1 (by norm_num) (by norm_num),
   (C2_cache_roundtrip_ttl (fun s => s) (fun _ => some ⟨[], [], -86400⟩) [('q')] [7] 0 0
      ⟨[], [], -86400⟩).2 rfl (by norm_num)⟩

/-! ## C5: missing-credential short-circuit -/

/-- C5: with no API key configured, the Bing and Brave adapters of the
advanced client return an empty result list with zero events (in particular
zero network calls) and log the descriptive missing-credential message, for
every endpoint, query and would-be response. -/
theorem C5_missing_key_short_circuit (ep q : Str) (rj : Resp Json) :
    advSearchBing none ep q rj
      = { result := .ok [], events := [], logs := [.missingBingKey] }
    ∧ advSearchBrave none ep q rj
      = { result := .ok [], events := [], logs := [.missingBraveKey] }
    ∧ logText .missingBingKey
      = ("Bing API key is missing. Set BING_API_KEY or config.json.").toList
    ∧ logText .missingBraveKey
      = ("Brave API key is missing. Set BRAVE_API_KEY or config.json.").toList :=
  ⟨rfl, rfl, rfl, rfl⟩

/-! ## C4: adapters never raise — helper lemmas -/

theorem advWrap_ok (ep q : Str) (out : List SResult × Option PyErr) :
    (advWrap ep q out).result = .ok out.1 := rfl

theorem basicWrap_scrape_ok {β : Type} (d u : ℚ) (ep q : Str)
    (extract : β → List SResult) (resp : Resp β) :
    ∃ rs, (basicWrap d u ep q (scrapeParse extract resp)).result = .ok rs := by
  cases resp with
  | netFail => exact ⟨[], rfl⟩
  | badStatus => exact ⟨[], rfl⟩
  | content b => exact ⟨extract b, rfl⟩

/-- C4 counterexample: the basic client's Bing adapter, given an API key and a
successful response whose JSON body is the array `[]`, raises an uncaught
`AttributeError` (`data.get` on a list; only `RequestException` is caught)
instead of returning an empty list. -/
theorem C4_counterexample :
    (basicSearchBing 0 0 (some (("k").toList)) defaultBingEndpoint (("q").toList)
        (.content (Json.arr []))).result
      = .error .attributeError := rfl

/-- C4 amended: the advanced client's five adapters never raise — any error is
caught, a diagnostic carrying the query is logged, and a (possibly empty)
result list is returned — and so do the basic client's Google and DuckDuckGo
adapters; the basic client's Bing and SearXNG adapters catch only
request-level errors, so other exceptions propagate (see the
counterexample). -/
theorem C4_amended (q ep : Str) (key : Option Str)
    (rj : Resp Json) (rg : Resp (List GCandidate)) (rd : Resp (List DCandidate)) (d u : ℚ) :
    (∃ rs, (advSearchGoogle q rg).result = .ok rs)
    ∧ (∃ rs, (advSearchDdg q rd).result = .ok rs)
    ∧ (∃ rs, (advSearchBing key ep q rj).result = .ok rs)
    ∧ (∃ rs, (advSearchBrave key ep q rj).result = .ok rs)
    ∧ (∃ rs, (advSearchSearx ep q rj).result = .ok rs)
    ∧ (advSearchGoogle q .netFail).logs = [.searchError q]
    ∧ (advSearchBing (some (("k").toList)) ep q .netFail).logs = [.searchError q]
    ∧ (∃ rs, (basicSearchGoogle d u q rg).result = .ok rs)
    ∧ (∃ rs, (basicSearchDdg d u q rd).result = .ok rs) := by
  refine ⟨⟨_, advWrap_ok _ _ _⟩, ⟨_, advWrap_ok _ _ _⟩, ?_, ?_, ?_, rfl, rfl,
    basicWrap_scrape_ok d u googleSearchUrl q _ rg,
    basicWrap_scrape_ok d u ddgSearchUrl q _ rd⟩
  · unfold advSearchBing
    split
    · exact ⟨[], rfl⟩
    · exact ⟨_, advWrap_ok _ _ _⟩
  · unfold advSearchBrave
    split
    · exact ⟨[], rfl⟩
    · exact ⟨_, advWrap_ok _ _ _⟩
  · unfold advSearchSearx
    split
    · exact ⟨[], rfl⟩
    · exact ⟨_, advWrap_ok _ _ _⟩

/-! ## C3: cache short-circuit and persistence in the advanced client -/

theorem advSearch_live_events (cfg : AdvCfg) (cache : Option (CacheStore SResult))
    (hash : Str → Str) (q : Str) (e : Env)
    (hmiss : ((advCached cache hash q e.now).getD []).isEmpty = true) :
    (advSearch cfg cache hash q e).events
      = .sleep (cfg.delay + e.u) :: (advDispatch cfg q e).events := by
  simp only [advSearch, hmiss, Bool.true_eq_false, if_false]
  rcases hres : (advDispatch cfg q e).result with err | rs' <;> rfl

/-- C3 counterexample: with caching enabled and a FRESH cache entry holding
the empty list, `search` does NOT return it from cache: `if cached:` is false
for `[]`, so the client sleeps, refetches (a network call to the Google
endpoint) and overwrites the entry. -/
theorem C3_counterexample :
    cacheGet (fun s => s) (fun _ => some ⟨("q").toList, [], 0⟩) (("q").toList) 0
      = some ([] : List SResult)
    ∧ (advSearch ⟨0, ("google").toList, none, [], none, [], []⟩
          (some (fun _ => some ⟨("q").toList, [], 0⟩)) (fun s => s) (("q").toList)
          ⟨0, 0, .netFail, .netFail, .netFail⟩).events
      = [.sleep (0 + 0), .net googleSearchUrl] := by
  have hc : cacheGet (fun s => s) (fun _ => some ⟨("q").toList, [], 0⟩) (("q").toList) (0 : ℚ)
      = some ([] : List SResult) := by
    simp only [cacheGet]
    norm_num
  refine ⟨hc, ?_⟩
  have hm : ((advCached (some (fun _ => some ⟨("q").toList, ([] : List SResult), 0⟩))
        (fun s => s) (("q").toList) (0 : ℚ)).getD []).isEmpty = true := by
    show ((cacheGet (fun s => s) (fun _ => some ⟨("q").toList, ([] : List SResult), 0⟩)
        (("q").toList) (0 : ℚ)).getD []).isEmpty = true
    rw [hc]
    rfl
  rw [advSearch_live_events _ _ _ _ _ hm]
  rfl

/-- C3 amended: with caching enabled, a fresh NON-EMPTY cached result list is
returned directly — no events (no delay, no network call) and the cache left
unchanged; in every other case (including a fresh cached EMPTY list, which is
refetched) a live fetch runs and, when it returns, the fetched — possibly
empty — result list is persisted under the query before returning. -/
theorem C3_amended (cfg : AdvCfg) (st : CacheStore SResult) (hash : Str → Str)
    (q : Str) (e : Env) :
    (∀ rs, cacheGet hash st q e.now = some rs → rs ≠ [] →
        advSearch cfg (some st) hash q e
          = { result := .ok rs, cache := some st, events := [], logs := [] })
    ∧ ((cacheGet hash st q e.now).getD [] = [] →
        ∀ rs, (advSearch cfg (some st) hash q e).result = .ok rs →
          (advSearch cfg (some st) hash q e).cache
            = some (cacheSet hash st q rs e.now)) := by
  constructor
  · intro rs hget hne
    have hc : advCached (some st) hash q e.now = some rs := hget
    have hne' : rs.isEmpty = false := by
      simpa [List.isEmpty_iff] using hne
    simp [advSearch, hc, hne']
  · intro hmiss rs hok
    have hemp : ((advCached (some st) hash q e.now).getD []).isEmpty = true := by
      have h : (advCached (some st) hash q e.now).getD [] = [] := hmiss
      rw [h]
      rfl
    simp only [advSearch, hemp, Bool.true_eq_false, if_false] at hok ⊢
    rcases hres : (advDispatch cfg q e).result with err | rs'
    · rw [hres] at hok
      exact Except.noConfusion
        (show (Except.error err : Except PyErr (List SResult)) = .ok rs from hok)
    · rw [hres] at hok
      have hrs : rs' = rs := by
        have h' : (Except.ok rs' : Except PyErr (List SResult)) = .ok rs := hok
        injection h'
      show some (cacheSet hash st q rs' e.now) = some (cacheSet hash st q rs e.now)
      rw [hrs]

/-- Witness for C3 amended: a fresh non-empty entry is served from cache with
no events, and on a cache miss the fetched empty list is persisted. -/
theorem C3_witness :
    advSearch ⟨2, ("google").toList, none, [], none, [], []⟩
        (some (fun _ => some ⟨("q").toList, [⟨.null, .null, .null, none⟩], 5⟩))
        (fun s => s) (("q").toList) ⟨0, 5, .netFail, .netFail, .netFail⟩
      = { result := .ok [⟨.null, .null, .null, none⟩]
          cache := some (fun _ => some ⟨("q").toList, [⟨.null, .null, .null, none⟩], 5⟩)
          events := [], logs := [] }
    ∧ (advSearch ⟨2, ("google").toList, none, [], none, [], []⟩
          (some (fun _ => none)) (fun s => s) (("q").toList)
          ⟨0, 5, .netFail, .netFail, .netFail⟩).cache
      = some (cacheSet (fun s => s) (fun _ => none) (("q").toList) [] 5) :=
  ⟨(C3_amended ⟨2, ("google").toList, none, [], none, [], []⟩
      (fun _ => some ⟨("q").toList, [⟨.null, .null, .null, none⟩], 5⟩)
      (fun s => s) (("q").toList) ⟨0, 5, .netFail, .netFail, .netFail⟩).1
      [⟨.null, .null, .null, none⟩] (by simp only [cacheGet]; norm_num) (by simp),
   (C3_amended ⟨2, ("google").toList, none, [], none, [], []⟩
      (fun _ => none) (fun s => s) (("q").toList) ⟨0, 5, .netFail, .netFail, .netFail⟩).2
      rfl [] rfl⟩

/-! ## C8: mandatory pre-fetch delay — helper lemma -/

theorem basicWrap_events (d u : ℚ) (ep q : Str) (out : List SResult × Option PyErr) :
    (basicWrap d u ep q out).events = [.sleep (d + u), .net ep] := by
  unfold basicWrap
  rcases out with ⟨rs, e⟩
  cases e with
  | none => rfl
  | some err =>
    by_cases h : err = .requestError
    · simp [h]
    · simp [h]

/-- C8 counterexample: the basic client with engine `bing` and no API key
performs NO sleep at all for a live (never cached — the basic client has no
cache) query: the adapter short-circuits before `time.sleep`.  Moreover the
delay of the basic client happens inside the adapter, not before it is
invoked. -/
theorem C8_counterexample :
    basicSearch ⟨2, bingS, none, [], []⟩ (("q").toList) ⟨0, 0, .netFail, .netFail, .netFail⟩
      = { result := .ok [], events := [], logs := [.missingBingKey] } :=
  rfl

/-- C8 amended: the advanced client sleeps exactly `delay + u` (which lies in
`[delay, delay + 1)` for jitter `u ∈ [0,1)`) before dispatching to the
backend adapter, for every query not answered from cache and regardless of
engine; the basic client instead sleeps inside each adapter, immediately
before its HTTP request — and skips the delay entirely when a key-requiring
adapter short-circuits on a missing credential. -/
theorem C8_amended (cfg : AdvCfg) (cache : Option (CacheStore SResult)) (hash : Str → Str)
    (q : Str) (e : Env) (bcfg : BasicCfg) :
    (0 ≤ e.u → e.u < 1 →
      cfg.delay ≤ cfg.delay + e.u ∧ cfg.delay + e.u < cfg.delay + 1)
    ∧ ((advCached cache hash q e.now).getD [] = [] →
        (advSearch cfg cache hash q e).events
          = .sleep (cfg.delay + e.u) :: (advDispatch cfg q e).events)
    ∧ ((basicSearch bcfg q e).events = []
        ∨ ∃ ep, (basicSearch bcfg q e).events = [.sleep (bcfg.delay + e.u), .net ep])
    ∧ (bcfg.engine = bingS → pyTruthyOpt bcfg.bingKey = false →
        (basicSearch bcfg q e).events = []) := by
  refine ⟨fun h1 h2 => ⟨by linarith, by linarith⟩, ?_, ?_, ?_⟩
  · intro hmiss
    have hemp : ((advCached cache hash q e.now).getD []).isEmpty = true := by
      rw [hmiss]
      rfl
    exact advSearch_live_events cfg cache hash q e hemp
  · unfold basicSearch
    split
    · unfold basicSearchBing
      split
      · exact Or.inl rfl
      · exact Or.inr ⟨_, basicWrap_events _ _ _ _ _⟩
    · split
      · exact Or.inr ⟨_, basicWrap_events _ _ _ _ _⟩
      · split
        · unfold basicSearchSearx
          split
          · exact Or.inl rfl
          · exact Or.inr ⟨_, basicWrap_events _ _ _ _ _⟩
        · exact Or.inr ⟨_, basicWrap_events _ _ _ _ _⟩
  · intro heng hkey
    unfold basicSearch
    rw [if_pos heng]
    unfold basicSearchBing
    rw [if_pos hkey]

/-- Witness for C8 amended: delay bounds at `u = 1/2`, the sleep-then-dispatch
event shape on a cache miss, and the missing-key no-sleep case. -/
theorem C8_witness :
    ((2 : ℚ) ≤ 2 + 1/2 ∧ (2 : ℚ) + 1/2 < 2 + 1)
    ∧ (advSearch ⟨2, ("google").toList, none, [], none, [], []⟩ none (fun s => s)
          (("q").toList) ⟨1/2, 0, .netFail, .netFail, .netFail⟩).events
      = .sleep (2 + 1/2)
          :: (advDispatch ⟨2, ("google").toList, none, [], none, [], []⟩ (("q").toList)
                ⟨1/2, 0, .netFail, .netFail, .netFail⟩).events
    ∧ (basicSearch ⟨2, bingS, none, [], []⟩ (("q2").toList)
          ⟨1/2, 0, .netFail, .netFail, .netFail⟩).events = [] :=
  ⟨(C8_amended ⟨2, ("google").toList, none, [], none, [], []⟩ none (fun s => s)
      (("q").toList) ⟨1/2, 0, .netFail, .netFail, .netFail⟩ ⟨2, bingS, none, [], []⟩).1
      (by norm_num) (by norm_num),
   (C8_amended ⟨2, ("google").toList, none, [], none, [], []⟩ none (fun s => s)
      (("q").toList) ⟨1/2, 0, .netFail, .netFail, .netFail⟩ ⟨2, bingS, none, [], []⟩).2.1
      rfl,
   (C8_amended ⟨2, ("google").toList, none, [], none, [], []⟩ none (fun s => s)
      (("q2").toList) ⟨1/2, 0, .netFail, .netFail, .netFail⟩ ⟨2, bingS, none, [], []⟩).2.2.2
      rfl rfl⟩

/-! ## C6: Google adapter URL filtering — host lemmas -/

theorem afterSlashes_suffix :
    ∀ (l r : List Char), afterSlashes l = some r → r <:+ l := by
  intro l
  induction l with
  | nil => intro r h; exact absurd h (by simp [afterSlashes])
  | cons a t ih =>
    intro r h
    cases t with
    | nil => exact absurd h (by simp [afterSlashes])
    | cons b rest =>
      rw [show afterSlashes (a :: b :: rest)
            = if a = '/' ∧ b = '/' then some rest else afterSlashes (b :: rest) from rfl] at h
      by_cases hab : a = '/' ∧ b = '/'
      · rw [if_pos hab] at h
        injection h with h'
        rw [← h']
        exact ((List.suffix_cons b rest).trans (List.suffix_cons a (b :: rest)))
      · rw [if_neg hab] at h
        exact (ih r h).trans (List.suffix_cons a (b :: rest))

theorem urlNetloc_substr (u : Str) : urlNetloc u <:+: u := by
  cases h : afterSlashes u with
  | none =>
    rw [show urlNetloc u = [] by unfold urlNetloc; rw [h]]
    exact List.nil_infix
  | some r =>
    have hn : urlNetloc u = r.takeWhile (fun c => !(c = '/' || c = '?' || c = '#')) := by
      unfold urlNetloc
      rw [h]
    rw [hn]
    obtain ⟨t, ht⟩ := List.takeWhile_prefix (l := r)
      (fun c => !(c = '/' || c = '?' || c = '#'))
    obtain ⟨s, hs⟩ := afterSlashes_suffix u r h
    exact ⟨s, t, by rw [List.append_assoc, ht, hs]⟩

theorem hostMatchesGoogle_substr (u : Str) :
    hostMatchesGoogle u = true → googleDom <:+: u := by
  intro h
  have hu : urlNetloc u <:+: u := urlNetloc_substr u
  unfold hostMatchesGoogle at h
  rcases Bool.or_eq_true_iff.mp h with h1 | h2
  · have he : urlNetloc u = googleDom := of_decide_eq_true h1
    rw [← he]
    exact hu
  · have hsuf : ('.' :: googleDom) <:+ urlNetloc u := of_decide_eq_true h2
    have h3 : googleDom <:+ urlNetloc u :=
      (List.suffix_cons '.' googleDom).trans hsuf
    exact h3.isInfix.trans hu

theorem hostMatchesGoogle_filtered (u : Str) :
    hostMatchesGoogle u = true → googleURLFilter u = false := by
  intro h
  have hin : strContains googleDom u = true :=
    decide_eq_true (hostMatchesGoogle_substr u h)
  simp [googleURLFilter, hin]

theorem googleURLFilter_true (u : Str) (h : googleURLFilter u = true) :
    u.isEmpty = false ∧ strContains googleDom u = false ∧ strHasPrefix httpS u = true := by
  unfold googleURLFilter at h
  simp only [Bool.and_eq_true, Bool.not_eq_true'] at h
  exact ⟨h.1.1, h.1.2, h.2⟩

/-- C6: for the Google adapter, a candidate whose URL host matches google.com
is excluded, a candidate whose URL does not start with `http` is excluded,
every included result starts with `http` and does not belong to google.com,
and the two exclusions are independent (each fires on an input passing the
other test). -/
theorem C6_google_url_filtering :
    (∀ u : Str, hostMatchesGoogle u = true → googleURLFilter u = false)
    ∧ (∀ u : Str, strHasPrefix httpS u = false → googleURLFilter u = false)
    ∧ (∀ (cands : List GCandidate) (r : GResult), r ∈ extractGoogleResults cands →
        strHasPrefix httpS r.url = true ∧ hostMatchesGoogle r.url = false)
    ∧ (strHasPrefix httpS (("https://www.google.com/url").toList) = true
        ∧ hostMatchesGoogle (("https://www.google.com/url").toList) = true
        ∧ googleURLFilter (("https://www.google.com/url").toList) = false)
    ∧ (strHasPrefix httpS (("www.example.com/page").toList) = false
        ∧ hostMatchesGoogle (("www.example.com/page").toList) = false
        ∧ googleURLFilter (("www.example.com/page").toList) = false) := by
  refine ⟨hostMatchesGoogle_filtered, ?_, ?_, by decide, by decide⟩
  · intro u h
    simp [googleURLFilter, h]
  · intro cands r hr
    obtain ⟨c, _, hc⟩ := List.mem_filterMap.mp hr
    rcases ht : c.titleElem with _ | title
    · rw [ht] at hc
      exact absurd hc (by simp)
    · rcases hl : c.link with _ | url
      · rw [ht, hl] at hc
        exact absurd hc (by simp)
      · rw [ht, hl] at hc
        simp only at hc
        by_cases hf : googleURLFilter url = true
        · rw [if_pos hf] at hc
          injection hc with hc'
          have hurl : r.url = url := by rw [← hc']
          obtain ⟨_, hnin, hpre⟩ := googleURLFilter_true url hf
          refine ⟨by rw [hurl]; exact hpre, ?_⟩
          by_contra hhost
          have hhost' : hostMatchesGoogle r.url = true := by
            revert hhost
            cases hostMatchesGoogle r.url <;> simp
          have : strContains googleDom url = true :=
            decide_eq_true (hostMatchesGoogle_substr url (by rw [← hurl]; exact hhost'))
          rw [this] at hnin
          exact Bool.noConfusion hnin
        · rw [if_neg hf] at hc
          exact absurd hc (by simp)

/-- Witness for C6: the domain exclusion, the scheme exclusion, and the
included-result guarantee at a concrete candidate list. -/
theorem C6_witness :
    googleURLFilter (("http://google.com/a").toList) = false
    ∧ googleURLFilter (("ftp://x.example").toList) = false
    ∧ (strHasPrefix httpS
          (⟨("t").toList, ("http://ok.example/x").toList, ("N/A").toList,
            ("ok.example").toList⟩ : GResult).url = true
        ∧ hostMatchesGoogle
            (⟨("t").toList, ("http://ok.example/x").toList, ("N/A").toList,
              ("ok.example").toList⟩ : GResult).url = false) :=
  ⟨(C6_google_url_filtering).1 (("http://google.com/a").toList) (by decide),
   (C6_google_url_filtering).2.1 (("ftp://x.example").toList) (by decide),
   (C6_google_url_filtering).2.2.1
     [⟨some (("t").toList), some (("http://ok.example/x").toList), none⟩]
     ⟨("t").toList, ("http://ok.example/x").toList, ("N/A").toList, ("ok.example").toList⟩
     (by decide)⟩

/-! ## C7: search_multiple aggregation — helper lemmas -/

theorem dlookup_append {R : Type} (d1 d2 : List (Str × R)) (k : Str) :
    dlookup (d1 ++ d2) k
      = match dlookup d1 k with
        | some v => some v
        | none => dlookup d2 k := by
  induction d1 with
  | nil => rfl
  | cons p d ih =>
    show (if p.1 = k then some p.2 else dlookup (d ++ d2) k) = _
    by_cases h : p.1 = k
    · simp [dlookup, h]
    · simp only [dlookup, if_neg h]
      exact ih

theorem dlookup_map_update_ne {R : Type} (d : List (Str × R)) (k k' : Str) (v : R)
    (hne : k ≠ k') :
    dlookup (d.map (fun p => if p.1 = k then (p.1, v) else p)) k' = dlookup d k' := by
  induction d with
  | nil => rfl
  | cons p d ih =>
    by_cases h : p.1 = k
    · simp only [List.map_cons, if_pos h, dlookup]
      rw [if_neg (by rw [h]; exact hne), if_neg (by rw [h]; exact hne)]
      exact ih
    · simp only [List.map_cons, if_neg h, dlookup]
      by_cases h' : p.1 = k'
      · rw [if_pos h', if_pos h']
      · rw [if_neg h', if_neg h']
        exact ih

theorem bool_not_true {b : Bool} (h : ¬ b = true) : b = false := by
  cases b
  · rfl
  · exact absurd rfl h

theorem dlookup_map_update_mem {R : Type} (d : List (Str × R)) (k : Str) (v : R)
    (hmem : d.any (fun p => decide (p.1 = k)) = true) :
    dlookup (d.map (fun p => if p.1 = k then (p.1, v) else p)) k = some v := by
  induction d with
  | nil => exact absurd hmem (by simp)
  | cons p d ih =>
    by_cases h : p.1 = k
    · simp only [List.map_cons, if_pos h, dlookup]
    · simp only [List.map_cons, if_neg h, dlookup, if_neg h]
      apply ih
      simp only [List.any_cons, Bool.or_eq_true, decide_eq_true_eq] at hmem
      rcases hmem with h1 | h2
      · exact absurd h1 h
      · exact h2

theorem dlookup_none_of_not_any {R : Type} (d : List (Str × R)) (k : Str)
    (h : d.any (fun p => decide (p.1 = k)) = false) :
    dlookup d k = none := by
  induction d with
  | nil => rfl
  | cons p d ih =>
    simp only [List.any_cons, Bool.or_eq_false_iff, decide_eq_false_iff_not] at h
    show (if p.1 = k then some p.2 else dlookup d k) = none
    rw [if_neg h.1]
    exact ih h.2

theorem dlookup_dictInsert {R : Type} (d : List (Str × R)) (k k' : Str) (v : R) :
    dlookup (dictInsert d k v) k' = if k = k' then some v else dlookup d k' := by
  unfold dictInsert
  by_cases hmem : d.any (fun p => decide (p.1 = k)) = true
  · rw [if_pos hmem]
    by_cases hk : k = k'
    · rw [if_pos hk, ← hk]
      exact dlookup_map_update_mem d k v hmem
    · rw [if_neg hk]
      exact dlookup_map_update_ne d k k' v hk
  · rw [if_neg hmem]
    rw [dlookup_append]
    by_cases hk : k = k'
    · rw [if_pos hk]
      rw [dlookup_none_of_not_any d k' (by rw [← hk]; exact bool_not_true hmem)]
      show (if k = k' then some v else none) = some v
      rw [if_pos hk]
    · rw [if_neg hk]
      have h2 : dlookup [(k, v)] k' = none := by
        show (if k = k' then some v else none) = none
        rw [if_neg hk]
      rw [h2]
      cases dlookup d k' <;> rfl

theorem runBatchAux_dlookup {R : Type} (f : Nat → R) :
    ∀ (qs : List Str) (n : Nat) (d : List (Str × R)) (k : Str),
      dlookup (runBatchAux f qs n d) k
        = match lastIdx qs k with
          | some i => some (f (n + i))
          | none => dlookup d k := by
  intro qs
  induction qs with
  | nil => intro n d k; rfl
  | cons q qs ih =>
    intro n d k
    show dlookup (runBatchAux f qs (n + 1) (dictInsert d q (f n))) k = _
    rw [ih (n + 1) (dictInsert d q (f n)) k, dlookup_dictInsert]
    rcases h : lastIdx qs k with _ | i
    · have hR : lastIdx (q :: qs) k = if q = k then some 0 else none := by
        show (match lastIdx qs k with
              | some j => some (j + 1)
              | none => if q = k then some 0 else none) = _
        rw [h]
      rw [hR]
      by_cases hq : q = k
      · rw [if_pos hq, if_pos hq]
        show some (f n) = some (f (n + 0))
        rw [Nat.add_zero]
      · rw [if_neg hq, if_neg hq]
    · have hR : lastIdx (q :: qs) k = some (i + 1) := by
        show (match lastIdx qs k with
              | some j => some (j + 1)
              | none => if q = k then some 0 else none) = _
        rw [h]
      rw [hR]
      show some (f (n + 1 + i)) = some (f (n + (i + 1)))
      rw [show n + 1 + i = n + (i + 1) by omega]

theorem keys_map_update {R : Type} (d : List (Str × R)) (k : Str) (v : R) :
    (d.map (fun p => if p.1 = k then (p.1, v) else p)).map Prod.fst = d.map Prod.fst := by
  rw [List.map_map]
  apply List.map_congr_left
  intro p _
  by_cases h : p.1 = k <;> simp [h]

theorem any_iff_mem_keys {R : Type} (d : List (Str × R)) (k : Str) :
    d.any (fun p => decide (p.1 = k)) = true ↔ k ∈ d.map Prod.fst := by
  induction d with
  | nil => simp
  | cons p d ih =>
    simp only [List.any_cons, Bool.or_eq_true, decide_eq_true_eq, List.map_cons,
      List.mem_cons, ih]
    constructor
    · rintro (h | h)
      · exact Or.inl h.symm
      · exact Or.inr h
    · rintro (h | h)
      · exact Or.inl h.symm
      · exact Or.inr h

theorem keys_dictInsert {R : Type} (d : List (Str × R)) (k : Str) (v : R) :
    (dictInsert d k v).map Prod.fst
      = if k ∈ d.map Prod.fst then d.map Prod.fst else d.map Prod.fst ++ [k] := by
  unfold dictInsert
  by_cases hmem : d.any (fun p => decide (p.1 = k)) = true
  · rw [if_pos hmem, if_pos ((any_iff_mem_keys d k).mp hmem)]
    exact keys_map_update d k v
  · rw [if_neg hmem, if_neg (fun hk => hmem ((any_iff_mem_keys d k).mpr hk))]
    simp

theorem keys_runBatchAux {R : Type} (f : Nat → R) :
    ∀ (qs : List Str) (n : Nat) (d : List (Str × R)),
      (runBatchAux f qs n d).map Prod.fst
        = qs.foldl (fun ks q => if q ∈ ks then ks else ks ++ [q]) (d.map Prod.fst) := by
  intro qs
  induction qs with
  | nil => intro n d; rfl
  | cons q qs ih =>
    intro n d
    show (runBatchAux f qs (n + 1) (dictInsert d q (f n))).map Prod.fst = _
    rw [ih (n + 1) (dictInsert d q (f n)), keys_dictInsert]
    rfl

theorem foldl_step_nodup :
    ∀ (qs ks : List Str), ks.Nodup →
      (qs.foldl (fun ks q => if q ∈ ks then ks else ks ++ [q]) ks).Nodup := by
  intro qs
  induction qs with
  | nil => intro ks h; exact h
  | cons q qs ih =>
    intro ks h
    show (qs.foldl _ (if q ∈ ks then ks else ks ++ [q])).Nodup
    by_cases hq : q ∈ ks
    · rw [if_pos hq]
      exact ih ks h
    · rw [if_neg hq]
      refine ih _ ?_
      simp [List.nodup_append, h, hq]

theorem mem_foldl_step :
    ∀ (qs ks : List Str) (x : Str),
      x ∈ qs.foldl (fun ks q => if q ∈ ks then ks else ks ++ [q]) ks
        ↔ x ∈ ks ∨ x ∈ qs := by
  intro qs
  induction qs with
  | nil => intro ks x; simp
  | cons q qs ih =>
    intro ks x
    show x ∈ qs.foldl _ (if q ∈ ks then ks else ks ++ [q]) ↔ _
    rw [ih]
    by_cases hq : q ∈ ks
    · rw [if_pos hq]
      constructor
      · rintro (h | h)
        · exact Or.inl h
        · exact Or.inr (List.mem_cons_of_mem q h)
      · rintro (h | h)
        · exact Or.inl h
        · rcases List.mem_cons.mp h with rfl | h'
          · exact Or.inl hq
          · exact Or.inr h'
    · rw [if_neg hq]
      simp only [List.mem_append, List.mem_singleton, List.mem_cons]
      tauto

/-- C7: `search_multiple` (per-search results given by the call oracle `f`)
returns one entry per distinct query, keyed by the literal query, iterated in
first-occurrence input order; a duplicated query's value is the result of its
LAST processed occurrence.  In particular `["q1","q1","q2"]` yields exactly
the keys `["q1","q2"]` with `"q1"` bound to the second call's result. -/
theorem C7_search_multiple {R : Type} (f : Nat → R) (qs : List Str) :
    (runBatch f qs).map Prod.fst = pyKeyOrder qs
    ∧ (pyKeyOrder qs).Nodup
    ∧ (∀ x, x ∈ pyKeyOrder qs ↔ x ∈ qs)
    ∧ (∀ k, dlookup (runBatch f qs) k = (lastIdx qs k).map f)
    ∧ pyKeyOrder [("q1").toList, ("q1").toList, ("q2").toList]
        = [("q1").toList, ("q2").toList]
    ∧ dlookup (runBatch f [("q1").toList, ("q1").toList, ("q2").toList]) (("q1").toList)
        = some (f 1) := by
  refine ⟨?_, ?_, ?_, ?_, by decide, ?_⟩
  · exact keys_runBatchAux f qs 0 []
  · exact foldl_step_nodup qs [] List.nodup_nil
  · intro x
    rw [show pyKeyOrder qs = qs.foldl (fun ks q => if q ∈ ks then ks else ks ++ [q]) [] from rfl]
    rw [mem_foldl_step qs [] x]
    simp
  · intro k
    rw [show runBatch f qs = runBatchAux f qs 0 [] from rfl]
    rw [runBatchAux_dlookup f qs 0 [] k]
    rcases h : lastIdx qs k with _ | i
    · rfl
    · show some (f (0 + i)) = some (f i)
      rw [Nat.zero_add]
  · rw [show runBatch f [("q1").toList, ("q1").toList, ("q2").toList]
          = runBatchAux f [("q1").toList, ("q1").toList, ("q2").toList] 0 [] from rfl]
    rw [runBatchAux_dlookup f _ 0 [] _]
    rw [show lastIdx [("q1").toList, ("q1").toList, ("q2").toList] (("q1").toList)
          = some 1 by decide]

/-! ## C9: configuration precedence -/

/-- C9 counterexample: with the environment variable `BING_ENDPOINT` SET (to
the empty string) and no config value, the resolved endpoint is the hardcoded
default, not the environment value — `os.getenv(...) or ...` treats a
set-but-empty variable as unset. -/
theorem C9_counterexample :
    (resolveBingConfig none (some []) (Json.obj [])).2 = .str defaultBingEndpoint
    ∧ defaultBingEndpoint ≠ ([] : Str) := by
  constructor
  · rfl
  · decide

/-- C9 amended: resolution uses Python truthiness rather than set-ness: the
environment value wins when set AND non-empty; otherwise the config value is
used when truthy, with the endpoint falling back to the hardcoded default
whenever both layers are empty or missing; the api_key (no hardcoded default)
is the config value whenever the environment variable is unset or empty, and
resolves to absent (`None`) when neither layer provides it. -/
theorem C9_amended (envKey envEp : Option Str) (cfg : Json) :
    (∀ s, envEp = some s → s ≠ [] → (resolveBingConfig envKey envEp cfg).2 = .str s)
    ∧ (pyTruthyOpt envEp = false →
        (resolveBingConfig envKey envEp cfg).2
          = (if jtruthy (getConfigValue cfg [bingK, endpointK] (.str defaultBingEndpoint)) then
               getConfigValue cfg [bingK, endpointK] (.str defaultBingEndpoint)
             else .str defaultBingEndpoint))
    ∧ (pyTruthyOpt envEp = false →
        getConfigValue cfg [bingK, endpointK] (.str defaultBingEndpoint)
          = .str defaultBingEndpoint →
        (resolveBingConfig envKey envEp cfg).2 = .str defaultBingEndpoint)
    ∧ (∀ s, envKey = some s → s ≠ [] → (resolveBingConfig envKey envEp cfg).1 = .str s)
    ∧ (pyTruthyOpt envKey = false →
        (resolveBingConfig envKey envEp cfg).1 = getConfigValue cfg [bingK, apiKeyK] .null) := by
  have henv : ∀ (env : Option Str) (fb : Json), pyTruthyOpt env = false → pyOrEnv env fb = fb := by
    intro env fb h
    cases env with
    | none => rfl
    | some s =>
      have hs : s.isEmpty = true := by
        simp only [pyTruthyOpt, Bool.not_eq_false'] at h
        exact h
      simp [pyOrEnv, hs]
  have henvT : ∀ (env : Option Str) (fb : Json) (s : Str), env = some s → s ≠ [] →
      pyOrEnv env fb = .str s := by
    intro env fb s hset hs
    rw [hset]
    simp [pyOrEnv, List.isEmpty_iff, hs]
  refine ⟨?_, ?_, ?_, ?_, ?_⟩
  · intro s hset hs
    show (if jtruthy (pyOrEnv envEp (getConfigValue cfg [bingK, endpointK]
            (.str defaultBingEndpoint))) then _ else _) = _
    rw [henvT envEp _ s hset hs]
    have ht : jtruthy (Json.str s) = true := by
      simp [jtruthy, List.isEmpty_iff, hs]
    rw [if_pos ht]
  · intro h
    show (if jtruthy (pyOrEnv envEp (getConfigValue cfg [bingK, endpointK]
            (.str defaultBingEndpoint))) then _ else _) = _
    rw [henv envEp _ h]
  · intro h hmissing
    show (if jtruthy (pyOrEnv envEp (getConfigValue cfg [bingK, endpointK]
            (.str defaultBingEndpoint))) then _ else _) = _
    rw [henv envEp _ h, hmissing]
    have ht : jtruthy (Json.str defaultBingEndpoint) = true := by decide
    rw [if_pos ht]
  · intro s hset hs
    show pyOrEnv envKey (getConfigValue cfg [bingK, apiKeyK] .null) = _
    exact henvT envKey _ s hset hs
  · intro h
    show pyOrEnv envKey (getConfigValue cfg [bingK, apiKeyK] .null) = _
    exact henv envKey _ h

/-- Witness for C9 amended: a set non-empty environment endpoint wins; with no
environment and an empty config the endpoint is the default and the api_key is
absent. -/
theorem C9_witness :
    (resolveBingConfig none (some (("http://ep.example").toList)) (Json.obj [])).2
      = .str (("http://ep.example").toList)
    ∧ (resolveBingConfig none none (Json.obj [])).2 = .str defaultBingEndpoint
    ∧ (resolveBingConfig none none (Json.obj [])).1 = .null :=
  ⟨(C9_amended none (some (("http://ep.example").toList)) (Json.obj [])).1
      (("http://ep.example").toList) rfl (by decide),
   (C9_amended none none (Json.obj [])).2.2.1 rfl rfl,
   (C9_amended none none (Json.obj [])).2.2.2.2 rfl⟩

end GoogleDork
